import Mathlib

/-!
Relational-to-graph follow sync (`main.go`)

A shallow embedding of the synchronisation code of `main.go`: the vertex
upsert `addUserVertex`, the edge upsert `addFollowEdge` with its lookup
`findFollowEdge`, the two lookups `getUserVertex` / `existsUserVertex`, and
the two loops of `main`.

The graph store is a value of type `Graph`, threaded explicitly.  Every
traversal that the Go code terminates with `.Next()` is one function below
(`vertexNext`, `bothENext`, `addVNext`, `addENext`, `setMutualNext`); each
takes an optional injected failure text, so that a round trip to the store
can fail for a reason the graph itself does not explain (network,
authentication, …).  A Go run-time panic is an explicit outcome.
-/

namespace NeptuneSync

/-! ## Configuration and data model -/

/-- The three environment-supplied names of `main.go`:
`USER_LABEL`, `FOLLOW_EDGE_LABEL`, `FOLLOW_EDGE_NAME`. -/
structure Config where
  userLabel : String
  followEdgeLabel : String
  f4fEdgeProp : String
deriving DecidableEq, Repr

/-- A property value as the code writes it: `nil` or a string for
`nickname` / `birth` (`sql.NullString.Value()`), a boolean for the
mutual-follow flag. -/
inductive PropValue where
  | null
  | str (s : String)
  | bool (b : Bool)
deriving DecidableEq, Repr

/-- A vertex of the store: `Element{Id, Label}` plus its properties. -/
structure Vertex where
  Id : String
  Label : String
  props : List (String × PropValue)
deriving DecidableEq, Repr

/-- An edge of the store: `Element{Id, Label}`, the ids of its out-vertex
(source) and in-vertex (target), and its properties. -/
structure Edge where
  Id : String
  Label : String
  OutV : String
  InV : String
  props : List (String × PropValue)
deriving DecidableEq, Repr

/-- The state of the graph store, in insertion order. -/
structure Graph where
  vertices : List Vertex
  edges : List Edge
deriving DecidableEq, Repr

/-- The Go struct `User`; `sql.NullString` is an optional string. -/
structure User where
  userId : String
  nickname : Option String
  birth : Option String
deriving DecidableEq, Repr

/-- The method `sql.NullString.Value()`: `nil` when the column is NULL, else the string. -/
def NullString.Value : Option String → PropValue
  | none => PropValue.null
  | some s => PropValue.str s

/-! ## Errors, results, panics -/

/-- A Go `error` value as this program can see one: its own sentinel
`ErrDataNotFound` (compared by identity through `errors.Is`), or an error
made by the graph client, known by its text. -/
inductive GoError where
  | ErrDataNotFound
  | driver (msg : String)
deriving DecidableEq, Repr

/-- The method `err.Error()`. -/
def GoError.Error : GoError → String
  | GoError.ErrDataNotFound => "data not found"
  | GoError.driver msg => msg

/-- The variable `GremlinErrNextNoResultsLeftError`. -/
def GremlinErrNextNoResultsLeftError : String := "E0903: there are no results left"

/-- A `*gremlingo.Result`: its `Data` is a vertex or an edge. -/
inductive Result where
  | vertex (v : Vertex)
  | edge (e : Edge)
deriving DecidableEq, Repr

/-- Text of the client's coercion failure; a stand-in, no property below
depends on it. -/
def coercionErrorText : String := "result is not of the requested element type"

/-- The client method `Result.GetVertex()`, which "gets the result by
coercing it into a Vertex, else returns an error": a type assertion of
`Data` to a vertex; when `Data` is an edge it returns a nil pointer and an
error. -/
def Result.GetVertex : Result → Option Vertex × Option GoError
  | Result.vertex v => (some v, none)
  | Result.edge _ => (none, some (GoError.driver coercionErrorText))

/-- The client method `Result.GetEdge()`, the same coercion to an edge: when
`Data` is a vertex it returns a nil pointer and an error. -/
def Result.GetEdge : Result → Option Edge × Option GoError
  | Result.edge e => (some e, none)
  | Result.vertex _ => (none, some (GoError.driver coercionErrorText))

/-- The id of the element a result holds (what `g.V(obj)`, `From(obj)` and
`To(obj)` resolve `obj.Data` to). -/
def Result.elementId : Result → String
  | Result.vertex v => v.Id
  | Result.edge e => e.Id

/-- Outcome of a Go call that may panic instead of returning. -/
inductive Exec (α : Type) where
  | ret (a : α)
  | panicked
deriving DecidableEq, Repr

/-- What `.Next()` hands back: one result, or an error (and then a nil
result). -/
inductive NextResp where
  | ok (r : Result)
  | fail (msg : String)
deriving DecidableEq, Repr

/-- The first component of the Go pair `res, err := ….Next()`. -/
def NextResp.res : NextResp → Option Result
  | NextResp.ok r => some r
  | NextResp.fail _ => none

/-- The second component of the Go pair `res, err := ….Next()`. -/
def NextResp.err : NextResp → Option GoError
  | NextResp.ok _ => none
  | NextResp.fail msg => some (GoError.driver msg)

/-! ## The graph store's traversals -/

/-- Does `v` pass `HasLabel(userLabel).HasId(vertexId)`? -/
def isUserVertex (cfg : Config) (vertexId : String) (v : Vertex) : Bool :=
  decide (v.Label = cfg.userLabel ∧ v.Id = vertexId)

/-- Is `e` a follow-labelled edge incident to the vertex `vertexId`, in
either direction (the step `BothE(followEdgeLabel)`)? -/
def isIncidentFollow (cfg : Config) (vertexId : String) (e : Edge) : Bool :=
  decide (e.Label = cfg.followEdgeLabel ∧ (e.OutV = vertexId ∨ e.InV = vertexId))

/-- The traversal `g.V().HasLabel(userLabel).HasId(vertexId).Next()`: the
user vertex with this id, or the no-results error. -/
def vertexNext (cfg : Config) (g : Graph) (fault : Option String) (vertexId : String) :
    NextResp :=
  match fault with
  | some msg => NextResp.fail msg
  | none =>
    match g.vertices.find? (isUserVertex cfg vertexId) with
    | some v => NextResp.ok (Result.vertex v)
    | none => NextResp.fail GremlinErrNextNoResultsLeftError

/-- The traversal
`g.V().HasLabel(userLabel).HasId(vertexId).BothE(followEdgeLabel).Next()`:
the first follow edge incident to the user vertex, in store order. -/
def bothENext (cfg : Config) (g : Graph) (fault : Option String) (vertexId : String) :
    NextResp :=
  match fault with
  | some msg => NextResp.fail msg
  | none =>
    match g.vertices.find? (isUserVertex cfg vertexId) with
    | none => NextResp.fail GremlinErrNextNoResultsLeftError
    | some v =>
      match g.edges.find? (isIncidentFollow cfg v.Id) with
      | some e => NextResp.ok (Result.edge e)
      | none => NextResp.fail GremlinErrNextNoResultsLeftError

/-- Text with which the store rejects a vertex whose id is taken; a
stand-in for the store's own wording. -/
def duplicateIdErrorText : String := "a vertex with this id already exists"

/-- Text with which the store rejects an edge to a vertex it does not hold;
a stand-in for the store's own wording. -/
def missingEndpointErrorText : String := "the target vertex does not exist"

/-- The traversal `g.AddV(userLabel).Property(T.Id, userId).Property("nickname", nickname).
Property("birth", birth).Next()`.  Vertex ids are unique in the store
(Neptune keeps the id the caller supplies): an id already in use is
rejected. -/
def addVNext (cfg : Config) (g : Graph) (fault : Option String) (userId : String)
    (nickname birth : PropValue) : NextResp × Graph :=
  match fault with
  | some msg => (NextResp.fail msg, g)
  | none =>
    if g.vertices.any (fun v => decide (v.Id = userId)) then
      (NextResp.fail duplicateIdErrorText, g)
    else
      let v : Vertex :=
        { Id := userId, Label := cfg.userLabel,
          props := [("nickname", nickname), ("birth", birth)] }
      (NextResp.ok (Result.vertex v), { g with vertices := g.vertices ++ [v] })

/-- The edge made by `AddE(followEdgeLabel).From(…).To(…).Property(f4fEdgeProp, false)`. -/
def newFollowEdge (cfg : Config) (newId fromId toId : String) : Edge :=
  { Id := newId, Label := cfg.followEdgeLabel, OutV := fromId, InV := toId,
    props := [(cfg.f4fEdgeProp, PropValue.bool false)] }

/-- The traversal `g.V(fromObj.Data).AddE(followEdgeLabel).From(fromObj.Data).To(toObj.Data).
Property(f4fEdgeProp, false).Next()`; `newId` is the id the store gives the
new edge. -/
def addENext (cfg : Config) (g : Graph) (fault : Option String) (newId : String)
    (fromObj toObj : Result) : NextResp × Graph :=
  match fault with
  | some msg => (NextResp.fail msg, g)
  | none =>
    if g.vertices.any (fun v => decide (v.Id = fromObj.elementId)) then
      if g.vertices.any (fun v => decide (v.Id = toObj.elementId)) then
        let e : Edge := newFollowEdge cfg newId fromObj.elementId toObj.elementId
        (NextResp.ok (Result.edge e), { g with edges := g.edges ++ [e] })
      else (NextResp.fail missingEndpointErrorText, g)
    else (NextResp.fail GremlinErrNextNoResultsLeftError, g)

/-- The step `Property(key, value)` on one element: the key's value is
replaced. -/
def setProp (props : List (String × PropValue)) (key : String) (value : PropValue) :
    List (String × PropValue) :=
  props.filter (fun p => decide (p.1 ≠ key)) ++ [(key, value)]

/-- Does `e` pass `HasLabel(followEdgeLabel).HasId(edgeId)`? -/
def isFollowEdgeWithId (cfg : Config) (edgeId : String) (e : Edge) : Bool :=
  decide (e.Label = cfg.followEdgeLabel ∧ e.Id = edgeId)

/-- The traversal
`g.E().HasLabel(followEdgeLabel).HasId(edgeId).Property(f4fEdgeProp, true).Next()`:
every follow edge with this id gets the flag `true`. -/
def setMutualNext (cfg : Config) (g : Graph) (fault : Option String) (edgeId : String) :
    NextResp × Graph :=
  match fault with
  | some msg => (NextResp.fail msg, g)
  | none =>
    let upd : Edge → Edge := fun e =>
      if isFollowEdgeWithId cfg edgeId e then
        { e with props := setProp e.props cfg.f4fEdgeProp (PropValue.bool true) }
      else e
    match g.edges.find? (isFollowEdgeWithId cfg edgeId) with
    | none => (NextResp.fail GremlinErrNextNoResultsLeftError, g)
    | some e => (NextResp.ok (Result.edge (upd e)), { g with edges := g.edges.map upd })

/-! ## The functions of `main.go` -/

/-- Go `getUserVertex` (main.go 115-124). -/
def getUserVertex (cfg : Config) (g : Graph) (fault : Option String) (vertexId : String) :
    Option Result × Option GoError :=
  let next := vertexNext cfg g fault vertexId
  match next.err with
  | some err =>
    if err.Error = GremlinErrNextNoResultsLeftError then
      (none, some GoError.ErrDataNotFound)
    else (none, some err)
  | none => (next.res, none)

/-- Go `existsUserVertex` (main.go 126-137). -/
def existsUserVertex (cfg : Config) (g : Graph) (fault : Option String) (vertexId : String) :
    Bool × Option GoError :=
  let next := vertexNext cfg g fault vertexId
  match next.err with
  | some err =>
    if err.Error ≠ GremlinErrNextNoResultsLeftError then (false, some err)
    else if err.Error = GremlinErrNextNoResultsLeftError then (false, none)
    else (true, none)
  | none => (true, none)

/-- The injected failures of the two store calls of `addUserVertex`. -/
structure UserFaults where
  existsLookup : Option String
  create : Option String
deriving DecidableEq, Repr

/-- No store call of `addUserVertex` fails. -/
def UserFaults.none : UserFaults := { existsLookup := Option.none, create := Option.none }

/-- Go `addUserVertex` (main.go 139-161): the returned error and the graph
afterwards. -/
def addUserVertex (cfg : Config) (g : Graph) (io : UserFaults) (userInfo : User) :
    Option GoError × Graph :=
  match existsUserVertex cfg g io.existsLookup userInfo.userId with
  | (_, some err) => (some err, g)
  | (true, Option.none) => (Option.none, g)
  | (false, Option.none) =>
    let nickname := NullString.Value userInfo.nickname
    let birth := NullString.Value userInfo.birth
    let created := addVNext cfg g io.create userInfo.userId nickname birth
    match created.1.err with
    | some createdErr => (some createdErr, created.2)
    | Option.none => (Option.none, created.2)

/-- Go `findFollowEdge` (main.go 164-189).  Both `inV` and `outV` come from
`res.GetVertex()` with the error dropped; reading `.Id` through a nil
pointer panics. -/
def findFollowEdge (cfg : Config) (g : Graph) (fault : Option String)
    (fromVertexId toVertexId : String) (_toObj : Option Result) :
    Exec (String × Option GoError) :=
  let next := bothENext cfg g fault fromVertexId
  let proceed : Exec (String × Option GoError) :=
    match next.res with
    | none => Exec.ret ("", some GoError.ErrDataNotFound)
    | some res =>
      let inV := res.GetVertex.1
      let outV := res.GetVertex.1
      let found : Exec (String × Option GoError) :=
        match res.GetEdge with
        | (_, some err) => Exec.ret ("", some err)
        | (some edgeRes, none) => Exec.ret (edgeRes.Id, none)
        | (none, none) => Exec.panicked
      match inV with
      | none => Exec.panicked
      | some inV =>
        if inV.Id = toVertexId then found
        else
          match outV with
          | none => Exec.panicked
          | some outV =>
            if outV.Id = toVertexId then found
            else Exec.ret ("", some GoError.ErrDataNotFound)
  match next.err with
  | some err =>
    if err.Error ≠ GremlinErrNextNoResultsLeftError then Exec.ret ("", some err)
    else proceed
  | none => proceed

/-- What the store does during one `addFollowEdge`: the injected failure of
each of its calls (the fourth call is the edge creation or the flag update)
and the id the store would give a new edge. -/
structure FollowFaults where
  fromLookup : Option String
  toLookup : Option String
  edgeLookup : Option String
  edgeWrite : Option String
  newEdgeId : String
deriving DecidableEq, Repr

/-- No store call of `addFollowEdge` fails. -/
def FollowFaults.none (newEdgeId : String) : FollowFaults :=
  { fromLookup := Option.none, toLookup := Option.none, edgeLookup := Option.none,
    edgeWrite := Option.none, newEdgeId := newEdgeId }

/-- Go `addFollowEdge` (main.go 191-230): the returned error (or a panic) and
the graph afterwards. -/
def addFollowEdge (cfg : Config) (g : Graph) (io : FollowFaults) (fromId toId : String) :
    Exec (Option GoError) × Graph :=
  match getUserVertex cfg g io.fromLookup fromId with
  | (_, some _) => (Exec.ret Option.none, g)
  | (fromObj, Option.none) =>
    match getUserVertex cfg g io.toLookup toId with
    | (_, some _) => (Exec.ret Option.none, g)
    | (toObj, Option.none) =>
      match findFollowEdge cfg g io.edgeLookup fromId toId toObj with
      | Exec.panicked => (Exec.panicked, g)
      | Exec.ret (edgeId, err) =>
        if err ≠ Option.none ∧ err ≠ some GoError.ErrDataNotFound then (Exec.ret err, g)
        else if err = some GoError.ErrDataNotFound then
          match fromObj, toObj with
          | some fromObj, some toObj =>
            let created := addENext cfg g io.edgeWrite io.newEdgeId fromObj toObj
            (Exec.ret Option.none, created.2)
          | _, _ => (Exec.panicked, g)
        else if err ≠ Option.none then (Exec.panicked, g)
        else
          let updated := setMutualNext cfg g io.edgeWrite edgeId
          match updated.1.err with
          | some err => (Exec.ret (some err), updated.2)
          | Option.none => (Exec.ret Option.none, updated.2)

/-- How a loop of `main` ends: it ran through its rows, or it panicked. -/
inductive RunEnd where
  | done
  | panicked
deriving DecidableEq, Repr

/-- The vertex loop of `main` (main.go 82-91) over the user rows, each with
what the store does during its call. -/
def vertexLoop (cfg : Config) : Graph → List (User × UserFaults) → RunEnd × Graph
  | g, [] => (RunEnd.done, g)
  | g, (u, io) :: rest =>
    match addUserVertex cfg g io u with
    | (some _, g') => (RunEnd.panicked, g')
    | (Option.none, g') => vertexLoop cfg g' rest

/-- The edge loop of `main` (main.go 100-111) over the follow rows, each
with what the store does during its call. -/
def edgeLoop (cfg : Config) : Graph → List ((String × String) × FollowFaults) → RunEnd × Graph
  | g, [] => (RunEnd.done, g)
  | g, ((fromId, toId), io) :: rest =>
    match addFollowEdge cfg g io fromId toId with
    | (Exec.panicked, g') => (RunEnd.panicked, g')
    | (Exec.ret (some _), g') => (RunEnd.panicked, g')
    | (Exec.ret Option.none, g') => edgeLoop cfg g' rest

/-- The two loops of `main` (main.go 70-113) in their order; the rows of the
two SQL queries are given, a panic in the vertex loop ends the run. -/
def main (cfg : Config) (g : Graph) (userRows : List (User × UserFaults))
    (followRows : List ((String × String) × FollowFaults)) : RunEnd × Graph :=
  match vertexLoop cfg g userRows with
  | (RunEnd.panicked, g') => (RunEnd.panicked, g')
  | (RunEnd.done, g') => edgeLoop cfg g' followRows

/-! ## Observations on a graph -/

/-- The follow edges between the vertices `a` and `b`, in either direction. -/
def followEdgesBetween (cfg : Config) (g : Graph) (a b : String) : List Edge :=
  g.edges.filter (fun e => decide (e.Label = cfg.followEdgeLabel ∧
    ((e.OutV = a ∧ e.InV = b) ∨ (e.OutV = b ∧ e.InV = a))))

/-- The value of the mutual-follow property of an edge, if it has one. -/
def Edge.mutualFlag (cfg : Config) (e : Edge) : Option PropValue :=
  (e.props.find? (fun p => decide (p.1 = cfg.f4fEdgeProp))).map Prod.snd

/-- The vertices of the graph with a given id. -/
def verticesWithId (g : Graph) (userId : String) : List Vertex :=
  g.vertices.filter (fun v => decide (v.Id = userId))

/-! ## Sample data -/

/-- A configuration as the tests of the repository use it. -/
def cfg0 : Config := { userLabel := "User", followEdgeLabel := "follow", f4fEdgeProp := "f4f" }

/-- A user vertex without properties. -/
def userV (userId : String) : Vertex := { Id := userId, Label := "User", props := [] }

/-- The graph with the two user vertices Terry and Mary and no edge. -/
def g2 : Graph := { vertices := [userV "Terry", userV "Mary"], edges := [] }

/-! ## Run inputs, invariants, further sample data -/

/-- Does the graph hold a user vertex with this id? -/
def HasUserVertex (cfg : Config) (g : Graph) (userId : String) : Prop :=
  ∃ w ∈ g.vertices, w.Label = cfg.userLabel ∧ w.Id = userId

/-- The user rows of a run in which no store call fails. -/
def withoutFaults (users : List User) : List (User × UserFaults) :=
  users.map (fun u => (u, UserFaults.none))

/-- The graph without vertices and edges. -/
def emptyGraph : Graph := { vertices := [], edges := [] }

/-- Three user rows, two of them for the same `userId` with different
attributes. -/
def sampleUsers : List User :=
  [ { userId := "Terry", nickname := some "T", birth := none },
    { userId := "Mary", nickname := none, birth := some "1999-12-31" },
    { userId := "Terry", nickname := some "T2", birth := some "2000-01-01" } ]

/-- The graph after one vertex run over `sampleUsers` from the empty graph. -/
def sampleAfterRun : Graph :=
  { vertices :=
      [ { Id := "Terry", Label := "User",
          props := [("nickname", PropValue.str "T"), ("birth", PropValue.null)] },
        { Id := "Mary", Label := "User",
          props := [("nickname", PropValue.null), ("birth", PropValue.str "1999-12-31")] } ],
    edges := [] }

/-- At most one follow edge per unordered pair of vertices. -/
def AtMostOnePerPair (cfg : Config) (g : Graph) : Prop :=
  ∀ a b : String, (followEdgesBetween cfg g a b).length ≤ 1

/-- No follow edge carries the mutual flag `true`. -/
def NoMutualFlag (cfg : Config) (g : Graph) : Prop :=
  ∀ e ∈ g.edges, e.Label = cfg.followEdgeLabel → e.mutualFlag cfg ≠ some (PropValue.bool true)

/-- The follow rows of a run in which no store call fails; each row comes
with the id the store would give a new edge. -/
def withoutFollowFaults (rows : List ((String × String) × String)) :
    List ((String × String) × FollowFaults) :=
  rows.map (fun r => (r.1, FollowFaults.none r.2))

/-- The sample graph after Terry followed Mary. -/
def g2Followed : Graph :=
  { vertices := [userV "Terry", userV "Mary"],
    edges := [newFollowEdge cfg0 "e1" "Terry" "Mary"] }

/-- A graph in which Terry follows Lucy and, created later, Mary. -/
def g3 : Graph :=
  { vertices := [userV "Terry", userV "Mary", userV "Lucy"],
    edges := [newFollowEdge cfg0 "e0" "Terry" "Lucy", newFollowEdge cfg0 "e1" "Terry" "Mary"] }

/-! ## Lemmas on the store's traversals -/

theorem vertexNext_of_mem (cfg : Config) (g : Graph) (vertexId : String) (v : Vertex)
    (hv : v ∈ g.vertices) (hl : v.Label = cfg.userLabel) (hid : v.Id = vertexId) :
    ∃ w, vertexNext cfg g none vertexId = NextResp.ok (Result.vertex w) ∧
      w ∈ g.vertices ∧ w.Label = cfg.userLabel ∧ w.Id = vertexId := by
  unfold vertexNext
  cases hf : g.vertices.find? (isUserVertex cfg vertexId) with
  | none =>
    have := List.find?_eq_none.mp hf v hv
    simp [isUserVertex, hl, hid] at this
  | some w =>
    have hw := List.find?_some hf
    have hm := List.mem_of_find?_eq_some hf
    simp only [isUserVertex, decide_eq_true_eq] at hw
    exact ⟨w, rfl, hm, hw.1, hw.2⟩

theorem getUserVertex_of_next_ok (cfg : Config) (g : Graph) (fault : Option String)
    (vertexId : String) (r : Result) (h : vertexNext cfg g fault vertexId = NextResp.ok r) :
    getUserVertex cfg g fault vertexId = (some r, none) := by
  simp [getUserVertex, h, NextResp.err, NextResp.res]

theorem getUserVertex_of_next_fail (cfg : Config) (g : Graph) (fault : Option String)
    (vertexId msg : String) (h : vertexNext cfg g fault vertexId = NextResp.fail msg) :
    getUserVertex cfg g fault vertexId =
      (none, some (if msg = GremlinErrNextNoResultsLeftError then GoError.ErrDataNotFound
        else GoError.driver msg)) := by
  simp only [getUserVertex, h, NextResp.err, GoError.Error]
  split <;> rfl

theorem existsUserVertex_of_next_ok (cfg : Config) (g : Graph) (fault : Option String)
    (vertexId : String) (r : Result) (h : vertexNext cfg g fault vertexId = NextResp.ok r) :
    existsUserVertex cfg g fault vertexId = (true, none) := by
  simp [existsUserVertex, h, NextResp.err]

theorem existsUserVertex_of_next_fail (cfg : Config) (g : Graph) (fault : Option String)
    (vertexId msg : String) (h : vertexNext cfg g fault vertexId = NextResp.fail msg) :
    existsUserVertex cfg g fault vertexId =
      (false, if msg = GremlinErrNextNoResultsLeftError then none
        else some (GoError.driver msg)) := by
  simp only [existsUserVertex, h, NextResp.err, GoError.Error]
  by_cases hm : msg = GremlinErrNextNoResultsLeftError <;> simp [hm]

/-! ## Lookups -/

/-- C9: for every vertex id and every answer of the store to the vertex
lookup, `existsUserVertex` returns `(false, nil)` exactly when the answer is
the no-results signal, `(true, nil)` exactly when the answer is a result, and
the store's error otherwise; `getUserVertex` returns `ErrDataNotFound`
exactly when the answer is the no-results signal, hands every other error
back unchanged, and hands a result back as it is. -/
theorem lookup_not_found_normalisation (cfg : Config) (g : Graph) (fault : Option String)
    (vertexId : String) :
    (existsUserVertex cfg g fault vertexId = (false, none) ↔
        vertexNext cfg g fault vertexId = NextResp.fail GremlinErrNextNoResultsLeftError) ∧
    (existsUserVertex cfg g fault vertexId = (true, none) ↔
        ∃ r, vertexNext cfg g fault vertexId = NextResp.ok r) ∧
    (∀ msg, vertexNext cfg g fault vertexId = NextResp.fail msg →
        msg ≠ GremlinErrNextNoResultsLeftError →
        existsUserVertex cfg g fault vertexId = (false, some (GoError.driver msg))) ∧
    ((getUserVertex cfg g fault vertexId).2 = some GoError.ErrDataNotFound ↔
        vertexNext cfg g fault vertexId = NextResp.fail GremlinErrNextNoResultsLeftError) ∧
    (∀ msg, vertexNext cfg g fault vertexId = NextResp.fail msg →
        msg ≠ GremlinErrNextNoResultsLeftError →
        getUserVertex cfg g fault vertexId = (none, some (GoError.driver msg))) ∧
    (∀ r, vertexNext cfg g fault vertexId = NextResp.ok r →
        getUserVertex cfg g fault vertexId = (some r, none)) := by
  cases h : vertexNext cfg g fault vertexId with
  | ok r =>
    rw [existsUserVertex_of_next_ok cfg g fault vertexId r h,
      getUserVertex_of_next_ok cfg g fault vertexId r h]
    simp
  | fail msg =>
    rw [existsUserVertex_of_next_fail cfg g fault vertexId msg h,
      getUserVertex_of_next_fail cfg g fault vertexId msg h]
    by_cases hm : msg = GremlinErrNextNoResultsLeftError
    · subst hm; simp
    · simp [hm]

/-! ## Vertex sync -/

theorem addUserVertex_of_present (cfg : Config) (g : Graph) (io : UserFaults)
    (userInfo : User) (v : Vertex) (hv : v ∈ g.vertices) (hl : v.Label = cfg.userLabel)
    (hid : v.Id = userInfo.userId) (hio : io.existsLookup = none) :
    addUserVertex cfg g io userInfo = (none, g) := by
  obtain ⟨w, hw, -, -, -⟩ := vertexNext_of_mem cfg g userInfo.userId v hv hl hid
  simp [addUserVertex, hio, existsUserVertex_of_next_ok cfg g none userInfo.userId _ hw]

/-- C7: when the graph already holds a user vertex with the record's
`userId` and the existence lookup is answered, `addUserVertex` returns no
error and leaves the graph as it is, whatever nickname and birth the record
carries. -/
theorem addUserVertex_first_write_wins (cfg : Config) (g : Graph) (io : UserFaults)
    (userInfo : User) (v : Vertex) (hv : v ∈ g.vertices) (hl : v.Label = cfg.userLabel)
    (hid : v.Id = userInfo.userId) (hio : io.existsLookup = none) :
    addUserVertex cfg g io userInfo = (none, g) :=
  addUserVertex_of_present cfg g io userInfo v hv hl hid hio

/-- Witness of C7: Terry is stored without properties; a record for Terry
with a nickname and a birth date changes nothing. -/
theorem addUserVertex_first_write_wins_witness :
    addUserVertex cfg0 g2 UserFaults.none
      { userId := "Terry", nickname := some "T", birth := some "2000-01-01" } = (none, g2) :=
  addUserVertex_first_write_wins cfg0 g2 UserFaults.none
    { userId := "Terry", nickname := some "T", birth := some "2000-01-01" }
    (userV "Terry") (by decide) (by decide) (by decide) (by decide)

theorem addUserVertex_ok_step (cfg : Config) (g g' : Graph) (userInfo : User)
    (h : addUserVertex cfg g UserFaults.none userInfo = (none, g')) :
    HasUserVertex cfg g' userInfo.userId ∧ (∃ l, g'.vertices = g.vertices ++ l) ∧
      ((g.vertices.map Vertex.Id).Nodup → (g'.vertices.map Vertex.Id).Nodup) := by
  unfold addUserVertex at h
  cases hn : vertexNext cfg g none userInfo.userId with
  | ok r =>
    simp only [UserFaults.none, existsUserVertex_of_next_ok cfg g none userInfo.userId r hn,
      Prod.mk.injEq, true_and] at h
    subst h
    refine ⟨?_, ⟨[], by simp⟩, fun hnd => hnd⟩
    unfold vertexNext at hn
    cases hf : g.vertices.find? (isUserVertex cfg userInfo.userId) with
    | none => simp [hf] at hn
    | some w =>
      have hw := List.find?_some hf
      simp only [isUserVertex, decide_eq_true_eq] at hw
      exact ⟨w, List.mem_of_find?_eq_some hf, hw.1, hw.2⟩
  | fail msg =>
    simp only [UserFaults.none,
      existsUserVertex_of_next_fail cfg g none userInfo.userId msg hn] at h
    by_cases hm : msg = GremlinErrNextNoResultsLeftError
    · simp only [hm, if_true, addVNext] at h
      by_cases hany : (g.vertices.any fun v => decide (v.Id = userInfo.userId)) = true
      · simp [hany, NextResp.err] at h
      · simp only [hany, NextResp.err, Prod.mk.injEq, true_and] at h
        simp only [Bool.false_eq_true, if_false] at h
        have h := (Prod.mk.inj h).2
        subst h
        refine ⟨⟨_, List.mem_append_right _ (List.mem_singleton_self _), rfl, rfl⟩,
          ⟨_, rfl⟩, fun hnd => ?_⟩
        simp only [List.map_append, List.map_cons, List.map_nil]
        rw [List.nodup_append]
        refine ⟨hnd, List.nodup_singleton _, ?_⟩
        intro a ha hb
        simp only [List.mem_singleton] at hb
        subst hb
        apply hany
        rw [List.any_eq_true]
        obtain ⟨x, hx, hxid⟩ := List.mem_map.mp ha
        exact ⟨x, hx, by simp [hxid]⟩
    · simp [hm] at h

theorem vertexLoop_ok_run (cfg : Config) (users : List User) :
    ∀ g g1 : Graph, vertexLoop cfg g (withoutFaults users) = (RunEnd.done, g1) →
      (∀ u ∈ users, HasUserVertex cfg g1 u.userId) ∧ (∃ l, g1.vertices = g.vertices ++ l) ∧
      ((g.vertices.map Vertex.Id).Nodup → (g1.vertices.map Vertex.Id).Nodup) := by
  induction users with
  | nil =>
    intro g g1 h
    simp only [withoutFaults, List.map_nil, vertexLoop, Prod.mk.injEq, true_and] at h
    subst h
    exact ⟨by simp, ⟨[], by simp⟩, fun hnd => hnd⟩
  | cons u rest ih =>
    intro g g1 h
    simp only [withoutFaults, List.map_cons, vertexLoop] at h
    cases hs : addUserVertex cfg g UserFaults.none u with
    | mk err g' =>
      cases err with
      | some e => simp [hs] at h
      | none =>
        simp only [hs] at h
        obtain ⟨hu, ⟨l1, hl1⟩, hnd1⟩ := addUserVertex_ok_step cfg g g' u hs
        obtain ⟨hrest, ⟨l2, hl2⟩, hnd2⟩ := ih g' g1 h
        refine ⟨?_, ⟨l1 ++ l2, by rw [hl2, hl1, List.append_assoc]⟩, fun hnd => hnd2 (hnd1 hnd)⟩
        intro x hx
        rcases List.mem_cons.mp hx with rfl | hx
        · obtain ⟨w, hw, hwl, hwid⟩ := hu
          exact ⟨w, by rw [hl2]; exact List.mem_append_left _ hw, hwl, hwid⟩
        · exact hrest x hx

theorem vertexLoop_of_present (cfg : Config) (g : Graph) (users : List User)
    (h : ∀ u ∈ users, HasUserVertex cfg g u.userId) :
    vertexLoop cfg g (withoutFaults users) = (RunEnd.done, g) := by
  induction users with
  | nil => rfl
  | cons u rest ih =>
    obtain ⟨w, hw, hwl, hwid⟩ := h u (List.mem_cons_self _ _)
    simp only [withoutFaults, List.map_cons, vertexLoop,
      addUserVertex_of_present cfg g UserFaults.none u w hw hwl hwid rfl]
    exact ih (fun x hx => h x (List.mem_cons_of_mem _ hx))

theorem filter_id_of_nodup (l : List Vertex) (w : Vertex) (hnd : (l.map Vertex.Id).Nodup)
    (hw : w ∈ l) : l.filter (fun v => decide (v.Id = w.Id)) = [w] := by
  induction l with
  | nil => cases hw
  | cons x xs ih =>
    simp only [List.map_cons, List.nodup_cons] at hnd
    rcases List.mem_cons.mp hw with rfl | hmem
    · have hnil : xs.filter (fun v => decide (v.Id = w.Id)) = [] := by
        rw [List.filter_eq_nil_iff]
        intro y hy
        simp only [decide_eq_true_eq]
        intro hyw
        exact hnd.1 (List.mem_map.mpr ⟨y, hy, hyw⟩)
      simp [List.filter, hnil]
    · have hx : x.Id ≠ w.Id := by
        intro hxw
        exact hnd.1 (List.mem_map.mpr ⟨w, hmem, hxw.symm⟩)
      simp [List.filter, hx, ih hnd.2 hmem]

theorem addUserVertex_keeps_edges (cfg : Config) (g : Graph) (io : UserFaults)
    (userInfo : User) : (addUserVertex cfg g io userInfo).2.edges = g.edges := by
  unfold addUserVertex
  split
  · rfl
  · rfl
  · simp only [addVNext]
    cases io.create with
    | some msg => simp only []; split <;> rfl
    | none =>
      simp only []
      by_cases hany : (g.vertices.any fun v => decide (v.Id = userInfo.userId)) = true
      · simp only [hany, if_true]; split <;> rfl
      · simp only [hany]; split <;> rfl

theorem vertexLoop_keeps_edges (cfg : Config) (rows : List (User × UserFaults)) :
    ∀ g : Graph, (vertexLoop cfg g rows).2.edges = g.edges := by
  induction rows with
  | nil => intro g; rfl
  | cons row rest ih =>
    intro g
    obtain ⟨u, io⟩ := row
    have hstep := addUserVertex_keeps_edges cfg g io u
    simp only [vertexLoop]
    cases hs : addUserVertex cfg g io u with
    | mk err g' =>
      rw [hs] at hstep
      cases err with
      | some e => exact hstep
      | none => simp only []; rw [ih g']; exact hstep

theorem addUserVertex_completes (cfg : Config) (g : Graph) (userInfo : User)
    (hlab : ∀ v ∈ g.vertices, v.Id = userInfo.userId → v.Label = cfg.userLabel) :
    ∃ g', addUserVertex cfg g UserFaults.none userInfo = (none, g') ∧
      ∀ v ∈ g'.vertices, v ∈ g.vertices ∨ v.Label = cfg.userLabel := by
  by_cases hex : ∃ v ∈ g.vertices, v.Id = userInfo.userId
  · obtain ⟨v, hv, hid⟩ := hex
    exact ⟨g,
      addUserVertex_of_present cfg g UserFaults.none userInfo v hv (hlab v hv hid) hid rfl,
      fun w hw => Or.inl hw⟩
  · have hfind : g.vertices.find? (isUserVertex cfg userInfo.userId) = none := by
      rw [List.find?_eq_none]
      intro v hv
      simp only [isUserVertex, decide_eq_true_eq]
      exact fun h => hex ⟨v, hv, h.2⟩
    have hany : ¬ (g.vertices.any fun v => decide (v.Id = userInfo.userId)) = true := by
      rw [List.any_eq_true]
      rintro ⟨v, hv, hid⟩
      exact hex ⟨v, hv, by simpa using hid⟩
    have hn : vertexNext cfg g none userInfo.userId =
        NextResp.fail GremlinErrNextNoResultsLeftError := by
      simp [vertexNext, hfind]
    refine ⟨{ g with vertices := g.vertices ++
        [{ Id := userInfo.userId, Label := cfg.userLabel,
           props := [("nickname", NullString.Value userInfo.nickname),
             ("birth", NullString.Value userInfo.birth)] }] }, ?_, ?_⟩
    · simp [addUserVertex, UserFaults.none,
        existsUserVertex_of_next_fail cfg g none userInfo.userId _ hn, addVNext, hany,
        NextResp.err]
    · intro v hv
      rcases List.mem_append.mp hv with hv | hv
      · exact Or.inl hv
      · simp only [List.mem_singleton] at hv
        subst hv; exact Or.inr rfl

/-- The vertex loop without store failures runs through a list of user
records whenever no vertex of another label holds a `userId` of the list. -/
theorem vertexLoop_completes (cfg : Config) (users : List User) :
    ∀ g : Graph,
      (∀ v ∈ g.vertices, ∀ u ∈ users, v.Id = u.userId → v.Label = cfg.userLabel) →
      ∃ g1, vertexLoop cfg g (withoutFaults users) = (RunEnd.done, g1) := by
  induction users with
  | nil => intro g _; exact ⟨g, rfl⟩
  | cons u rest ih =>
    intro g hlab
    obtain ⟨g', hs, hg'⟩ :=
      addUserVertex_completes cfg g u (fun v hv => hlab v hv u (List.mem_cons_self _ _))
    have hlab' : ∀ v ∈ g'.vertices, ∀ x ∈ rest, v.Id = x.userId → v.Label = cfg.userLabel := by
      intro v hv x hx hid
      rcases hg' v hv with hold | hnew
      · exact hlab v hold x (List.mem_cons_of_mem _ hx) hid
      · exact hnew
    obtain ⟨g1, h1⟩ := ih g' hlab'
    exact ⟨g1, by simp only [withoutFaults, List.map_cons, vertexLoop, hs]; exact h1⟩

/-- C6: take a graph whose vertex ids are distinct and in which no vertex of
another label holds a `userId` of the list (the two conditions under which
the store accepts every call).  Then the vertex loop over the list, no store
call failing, ends normally with a graph `g1`; a second run over the same
list from `g1` ends normally with `g1` again; `g1` keeps the vertices and
edges it started from; and for every `userId` of the list `g1` holds exactly
one vertex with this id, a user vertex. -/
theorem vertexLoop_idempotent (cfg : Config) (g : Graph) (users : List User)
    (hg : (g.vertices.map Vertex.Id).Nodup)
    (hlab : ∀ v ∈ g.vertices, ∀ u ∈ users, v.Id = u.userId → v.Label = cfg.userLabel) :
    ∃ g1, vertexLoop cfg g (withoutFaults users) = (RunEnd.done, g1) ∧
      vertexLoop cfg g1 (withoutFaults users) = (RunEnd.done, g1) ∧
      (∃ l, g1.vertices = g.vertices ++ l) ∧ g1.edges = g.edges ∧
      ∀ u ∈ users, ∃ w, verticesWithId g1 u.userId = [w] ∧ w.Label = cfg.userLabel := by
  obtain ⟨g1, h1⟩ := vertexLoop_completes cfg users g hlab
  obtain ⟨hall, hpre, hnd⟩ := vertexLoop_ok_run cfg users g g1 h1
  have hedges : g1.edges = g.edges := by
    have h := vertexLoop_keeps_edges cfg (withoutFaults users) g
    rw [h1] at h
    exact h
  refine ⟨g1, h1, vertexLoop_of_present cfg g1 users hall, hpre, hedges, ?_⟩
  intro u hu
  obtain ⟨w, hw, hwl, hwid⟩ := hall u hu
  refine ⟨w, ?_, hwl⟩
  rw [← hwid]
  exact filter_id_of_nodup g1.vertices w (hnd hg) hw

/-- Witness of C6: from the empty graph the run over `sampleUsers` ends with
`sampleAfterRun`, in which Terry keeps the attributes of the first row. -/
theorem vertexLoop_idempotent_witness :
    vertexLoop cfg0 emptyGraph (withoutFaults sampleUsers) = (RunEnd.done, sampleAfterRun) ∧
      ∃ g1, vertexLoop cfg0 emptyGraph (withoutFaults sampleUsers) = (RunEnd.done, g1) ∧
        vertexLoop cfg0 g1 (withoutFaults sampleUsers) = (RunEnd.done, g1) ∧
        (∃ l, g1.vertices = emptyGraph.vertices ++ l) ∧ g1.edges = emptyGraph.edges ∧
        ∀ u ∈ sampleUsers, ∃ w, verticesWithId g1 u.userId = [w] ∧
          w.Label = cfg0.userLabel :=
  ⟨by decide,
    vertexLoop_idempotent cfg0 emptyGraph sampleUsers (by decide)
      (fun v hv => absurd hv (List.not_mem_nil v))⟩

/-! ## Edge sync -/

/-- C4: when the store answers the lookup of the `fromId` vertex or of the
`toId` vertex with the no-results signal, `addFollowEdge` returns no error
and the graph is unchanged. -/
theorem addFollowEdge_skips_missing_endpoint (cfg : Config) (g : Graph) (io : FollowFaults)
    (fromId toId : String)
    (h : vertexNext cfg g io.fromLookup fromId = NextResp.fail GremlinErrNextNoResultsLeftError ∨
      vertexNext cfg g io.toLookup toId = NextResp.fail GremlinErrNextNoResultsLeftError) :
    addFollowEdge cfg g io fromId toId = (Exec.ret none, g) := by
  unfold addFollowEdge
  cases hf : vertexNext cfg g io.fromLookup fromId with
  | fail msg =>
    rw [getUserVertex_of_next_fail cfg g io.fromLookup fromId msg hf]
  | ok r =>
    rw [getUserVertex_of_next_ok cfg g io.fromLookup fromId r hf]
    rcases h with h | h
    · rw [hf] at h; cases h
    · simp only [getUserVertex_of_next_fail cfg g io.toLookup toId _ h]

/-- Witness of C4: Terry exists, yoon does not; in either order the pair is
skipped. -/
theorem addFollowEdge_skips_missing_endpoint_witness :
    addFollowEdge cfg0 g2 (FollowFaults.none "e1") "Terry" "yoon" = (Exec.ret none, g2) :=
  addFollowEdge_skips_missing_endpoint cfg0 g2 (FollowFaults.none "e1") "Terry" "yoon"
    (Or.inr (by decide))

theorem bothENext_of_untouched (cfg : Config) (g : Graph) (vertexId : String)
    (hno : ∀ e ∈ g.edges, e.Label = cfg.followEdgeLabel → e.OutV ≠ vertexId ∧ e.InV ≠ vertexId) :
    bothENext cfg g none vertexId = NextResp.fail GremlinErrNextNoResultsLeftError := by
  unfold bothENext
  cases hf : g.vertices.find? (isUserVertex cfg vertexId) with
  | none => rfl
  | some w =>
    have hw := List.find?_some hf
    simp only [isUserVertex, decide_eq_true_eq] at hw
    have he : g.edges.find? (isIncidentFollow cfg w.Id) = none := by
      rw [List.find?_eq_none]
      intro e hmem
      have := hno e hmem
      simp only [isIncidentFollow, hw.2, decide_eq_true_eq]
      tauto
    simp [he]

theorem findFollowEdge_of_untouched (cfg : Config) (g : Graph) (fromId toId : String)
    (toObj : Option Result)
    (hno : ∀ e ∈ g.edges, e.Label = cfg.followEdgeLabel → e.OutV ≠ fromId ∧ e.InV ≠ fromId) :
    findFollowEdge cfg g none fromId toId toObj =
      Exec.ret ("", some GoError.ErrDataNotFound) := by
  simp [findFollowEdge, bothENext_of_untouched cfg g fromId hno, NextResp.err, NextResp.res,
    GoError.Error]

/-- C3: when the user vertices of `A` and `B` exist, no follow edge touches
`A` and no store call fails, `addFollowEdge A B` returns no error; the graph
afterwards has the same vertices and the same edges plus one new edge; that
edge is the only follow edge between `A` and `B`, runs from `A` to `B`, and
carries the mutual flag `false`. -/
theorem addFollowEdge_non_mutual (cfg : Config) (g : Graph) (newId A B : String)
    (va vb : Vertex)
    (ha : va ∈ g.vertices) (hal : va.Label = cfg.userLabel) (haid : va.Id = A)
    (hb : vb ∈ g.vertices) (hbl : vb.Label = cfg.userLabel) (hbid : vb.Id = B)
    (hno : ∀ e ∈ g.edges, e.Label = cfg.followEdgeLabel → e.OutV ≠ A ∧ e.InV ≠ A) :
    addFollowEdge cfg g (FollowFaults.none newId) A B =
        (Exec.ret none,
          { vertices := g.vertices, edges := g.edges ++ [newFollowEdge cfg newId A B] }) ∧
      followEdgesBetween cfg (addFollowEdge cfg g (FollowFaults.none newId) A B).2 A B =
        [newFollowEdge cfg newId A B] ∧
      (newFollowEdge cfg newId A B).OutV = A ∧ (newFollowEdge cfg newId A B).InV = B ∧
      (newFollowEdge cfg newId A B).mutualFlag cfg = some (PropValue.bool false) := by
  obtain ⟨wa, hwa, hwam, -, hwaid⟩ := vertexNext_of_mem cfg g A va ha hal haid
  obtain ⟨wb, hwb, hwbm, -, hwbid⟩ := vertexNext_of_mem cfg g B vb hb hbl hbid
  have hrun : addFollowEdge cfg g (FollowFaults.none newId) A B =
      (Exec.ret none,
        { vertices := g.vertices, edges := g.edges ++ [newFollowEdge cfg newId A B] }) := by
    simp only [addFollowEdge, FollowFaults.none,
      getUserVertex_of_next_ok cfg g none A _ hwa, getUserVertex_of_next_ok cfg g none B _ hwb,
      findFollowEdge_of_untouched cfg g A B _ hno]
    have hexA : ∃ x ∈ g.vertices, x.Id = A := ⟨wa, hwam, hwaid⟩
    have hexB : ∃ x ∈ g.vertices, x.Id = B := ⟨wb, hwbm, hwbid⟩
    simp [addENext, Result.elementId, hwaid, hwbid, hexA, hexB]
  refine ⟨hrun, ?_, rfl, rfl, ?_⟩
  · rw [hrun]
    have hold : g.edges.filter (fun e => decide (e.Label = cfg.followEdgeLabel ∧
        ((e.OutV = A ∧ e.InV = B) ∨ (e.OutV = B ∧ e.InV = A)))) = [] := by
      rw [List.filter_eq_nil_iff]
      intro e hmem
      have := hno e hmem
      simp only [decide_eq_true_eq]
      tauto
    simp only [followEdgesBetween, List.filter_append, hold, List.nil_append]
    simp [List.filter, newFollowEdge]
  · simp [Edge.mutualFlag, newFollowEdge]

/-- Witness of C3: Terry follows Mary in the graph without edges. -/
theorem addFollowEdge_non_mutual_witness :
    addFollowEdge cfg0 g2 (FollowFaults.none "e1") "Terry" "Mary" =
        (Exec.ret none,
          { vertices := g2.vertices, edges := g2.edges ++ [newFollowEdge cfg0 "e1" "Terry" "Mary"] }) ∧
      followEdgesBetween cfg0 (addFollowEdge cfg0 g2 (FollowFaults.none "e1") "Terry" "Mary").2
        "Terry" "Mary" = [newFollowEdge cfg0 "e1" "Terry" "Mary"] ∧
      (newFollowEdge cfg0 "e1" "Terry" "Mary").OutV = "Terry" ∧
      (newFollowEdge cfg0 "e1" "Terry" "Mary").InV = "Mary" ∧
      (newFollowEdge cfg0 "e1" "Terry" "Mary").mutualFlag cfg0 = some (PropValue.bool false) :=
  addFollowEdge_non_mutual cfg0 g2 "e1" "Terry" "Mary" (userV "Terry") (userV "Mary")
    (by decide) (by decide) (by decide) (by decide) (by decide) (by decide)
    (by intro e he; simp [g2] at he)

/-! ## The edge lookup on a vertex that has a follow edge -/

theorem findFollowEdge_of_edge (cfg : Config) (g : Graph) (fault : Option String)
    (fromId toId : String) (toObj : Option Result) (e : Edge)
    (h : bothENext cfg g fault fromId = NextResp.ok (Result.edge e)) :
    findFollowEdge cfg g fault fromId toId toObj = Exec.panicked := by
  simp [findFollowEdge, h, NextResp.err, NextResp.res, Result.GetVertex]

theorem bothENext_of_incident (cfg : Config) (g : Graph) (fromId : String) (v : Vertex)
    (e : Edge) (hv : v ∈ g.vertices) (hl : v.Label = cfg.userLabel) (hid : v.Id = fromId)
    (he : e ∈ g.edges) (hel : e.Label = cfg.followEdgeLabel)
    (hinc : e.OutV = fromId ∨ e.InV = fromId) :
    ∃ e', bothENext cfg g none fromId = NextResp.ok (Result.edge e') := by
  unfold bothENext
  cases hf : g.vertices.find? (isUserVertex cfg fromId) with
  | none =>
    have := List.find?_eq_none.mp hf v hv
    simp [isUserVertex, hl, hid] at this
  | some w =>
    have hw := List.find?_some hf
    simp only [isUserVertex, decide_eq_true_eq] at hw
    cases hfe : g.edges.find? (isIncidentFollow cfg w.Id) with
    | none =>
      have := List.find?_eq_none.mp hfe e he
      simp [isIncidentFollow, hel, hw.2, hinc] at this
    | some e' => exact ⟨e', by simp [hfe]⟩

/-- Whenever both endpoint vertices exist, no store call fails and the
`fromId` vertex already has a follow edge, `addFollowEdge` panics and leaves
the graph as it is: the flag update of step 3.2 is never reached. -/
theorem addFollowEdge_panics_of_incident (cfg : Config) (g : Graph) (newId fromId toId : String)
    (va vb : Vertex) (e : Edge)
    (ha : va ∈ g.vertices) (hal : va.Label = cfg.userLabel) (haid : va.Id = fromId)
    (hb : vb ∈ g.vertices) (hbl : vb.Label = cfg.userLabel) (hbid : vb.Id = toId)
    (he : e ∈ g.edges) (hel : e.Label = cfg.followEdgeLabel)
    (hinc : e.OutV = fromId ∨ e.InV = fromId) :
    addFollowEdge cfg g (FollowFaults.none newId) fromId toId = (Exec.panicked, g) := by
  obtain ⟨wa, hwa, -, -, -⟩ := vertexNext_of_mem cfg g fromId va ha hal haid
  obtain ⟨wb, hwb, -, -, -⟩ := vertexNext_of_mem cfg g toId vb hb hbl hbid
  obtain ⟨e', he'⟩ := bothENext_of_incident cfg g fromId va e ha hal haid he hel hinc
  simp only [addFollowEdge, FollowFaults.none,
    getUserVertex_of_next_ok cfg g none fromId _ hwa,
    getUserVertex_of_next_ok cfg g none toId _ hwb,
    findFollowEdge_of_edge cfg g none fromId toId _ e' he']

theorem bothENext_cases (cfg : Config) (g : Graph) (fault : Option String) (vertexId : String) :
    (∃ msg, bothENext cfg g fault vertexId = NextResp.fail msg) ∨
      ∃ e, bothENext cfg g fault vertexId = NextResp.ok (Result.edge e) := by
  unfold bothENext
  cases fault with
  | some msg => exact Or.inl ⟨msg, rfl⟩
  | none =>
    cases hf : g.vertices.find? (isUserVertex cfg vertexId) with
    | none => exact Or.inl ⟨_, rfl⟩
    | some w =>
      cases hfe : g.edges.find? (isIncidentFollow cfg w.Id) with
      | none => exact Or.inl ⟨GremlinErrNextNoResultsLeftError, by simp [hfe]⟩
      | some e => exact Or.inr ⟨e, by simp [hfe]⟩

/-- The outcomes of `findFollowEdge`: it panics, or it returns the empty id
with an error; it never returns an edge id. -/
theorem findFollowEdge_cases (cfg : Config) (g : Graph) (fault : Option String)
    (fromId toId : String) (toObj : Option Result) :
    findFollowEdge cfg g fault fromId toId toObj = Exec.panicked ∨
      ∃ err, findFollowEdge cfg g fault fromId toId toObj = Exec.ret ("", some err) := by
  rcases bothENext_cases cfg g fault fromId with ⟨msg, h⟩ | ⟨e, h⟩
  · right
    by_cases hm : msg = GremlinErrNextNoResultsLeftError
    · exact ⟨GoError.ErrDataNotFound, by
        simp [findFollowEdge, h, NextResp.err, NextResp.res, GoError.Error, hm]⟩
    · exact ⟨GoError.driver msg, by
        simp [findFollowEdge, h, NextResp.err, NextResp.res, GoError.Error, hm]⟩
  · exact Or.inl (findFollowEdge_of_edge cfg g fault fromId toId toObj e h)

/-- The graph after `addFollowEdge`: unchanged, or with one new follow edge
from `fromId` to `toId` carrying the flag `false`; in the second case the
call returned no error. -/
theorem addFollowEdge_graph_cases (cfg : Config) (g : Graph) (io : FollowFaults)
    (fromId toId : String) :
    (addFollowEdge cfg g io fromId toId).2 = g ∨
      addFollowEdge cfg g io fromId toId =
        (Exec.ret none,
          { vertices := g.vertices,
            edges := g.edges ++ [newFollowEdge cfg io.newEdgeId fromId toId] }) := by
  unfold addFollowEdge
  cases hf : vertexNext cfg g io.fromLookup fromId with
  | fail msg =>
    left; rw [getUserVertex_of_next_fail cfg g io.fromLookup fromId msg hf]
  | ok ra =>
    rw [getUserVertex_of_next_ok cfg g io.fromLookup fromId ra hf]
    cases ht : vertexNext cfg g io.toLookup toId with
    | fail msg =>
      left; simp only [getUserVertex_of_next_fail cfg g io.toLookup toId msg ht]
    | ok rb =>
      simp only [getUserVertex_of_next_ok cfg g io.toLookup toId rb ht]
      rcases findFollowEdge_cases cfg g io.edgeLookup fromId toId (some rb) with hp | ⟨err, hr⟩
      · left; simp only [hp]
      · simp only [hr]
        by_cases hnf : err = GoError.ErrDataNotFound
        · subst hnf
          simp only [ne_eq, not_true_eq_false, and_false, if_false, if_true]
          have ha : ∃ wa, ra = Result.vertex wa ∧ wa.Id = fromId := by
            unfold vertexNext at hf
            cases hio : io.fromLookup with
            | some m => simp [hio] at hf
            | none =>
              simp only [hio] at hf
              cases hfind : g.vertices.find? (isUserVertex cfg fromId) with
              | none => simp [hfind] at hf
              | some w =>
                simp only [hfind, NextResp.ok.injEq] at hf
                have hw := List.find?_some hfind
                simp only [isUserVertex, decide_eq_true_eq] at hw
                exact ⟨w, hf.symm, hw.2⟩
          have hb : ∃ wb, rb = Result.vertex wb ∧ wb.Id = toId := by
            unfold vertexNext at ht
            cases hio : io.toLookup with
            | some m => simp [hio] at ht
            | none =>
              simp only [hio] at ht
              cases hfind : g.vertices.find? (isUserVertex cfg toId) with
              | none => simp [hfind] at ht
              | some w =>
                simp only [hfind, NextResp.ok.injEq] at ht
                have hw := List.find?_some hfind
                simp only [isUserVertex, decide_eq_true_eq] at hw
                exact ⟨w, ht.symm, hw.2⟩
          obtain ⟨wa, rfl, hwa⟩ := ha
          obtain ⟨wb, rfl, hwb⟩ := hb
          simp only [addENext, Result.elementId, hwa, hwb]
          cases io.edgeWrite with
          | some m => left; rfl
          | none =>
            by_cases h1 : (g.vertices.any fun v => decide (v.Id = fromId)) = true
            · by_cases h2 : (g.vertices.any fun v => decide (v.Id = toId)) = true
              · right; simp [h1, h2]
              · left; simp [h1, h2]
            · left; simp [h1]
        · left; simp [hnf]

/-- When `addFollowEdge` returns an error, it has not changed the graph. -/
theorem addFollowEdge_error_keeps_graph (cfg : Config) (g g' : Graph) (io : FollowFaults)
    (fromId toId : String) (e : GoError)
    (h : addFollowEdge cfg g io fromId toId = (Exec.ret (some e), g')) : g' = g := by
  rcases addFollowEdge_graph_cases cfg g io fromId toId with hg | hg
  · rw [h] at hg; exact hg
  · rw [h] at hg; simp at hg

theorem edgeLoop_append (cfg : Config) (pre post : List ((String × String) × FollowFaults)) :
    ∀ g gk : Graph, edgeLoop cfg g pre = (RunEnd.done, gk) →
      edgeLoop cfg g (pre ++ post) = edgeLoop cfg gk post := by
  induction pre with
  | nil =>
    intro g gk h
    simp only [edgeLoop, Prod.mk.injEq, true_and] at h
    subst h; rfl
  | cons row rest ih =>
    intro g gk h
    obtain ⟨⟨fromId, toId⟩, io⟩ := row
    simp only [List.cons_append, edgeLoop] at h ⊢
    cases hs : addFollowEdge cfg g io fromId toId with
    | mk r g' =>
      cases r with
      | panicked => simp [hs] at h
      | ret err =>
        cases err with
        | some e => simp [hs] at h
        | none =>
          simp only [hs] at h ⊢
          exact ih g' gk h

/-- The edge loop stops at the first row for which `addFollowEdge` returns
an error, with the graph that the rows before it produced. -/
theorem edgeLoop_halts_on_error (cfg : Config) (g gk g' : Graph)
    (pre post : List ((String × String) × FollowFaults)) (io : FollowFaults)
    (fromId toId : String) (e : GoError)
    (hpre : edgeLoop cfg g pre = (RunEnd.done, gk))
    (herr : addFollowEdge cfg gk io fromId toId = (Exec.ret (some e), g')) :
    edgeLoop cfg g (pre ++ ((fromId, toId), io) :: post) = (RunEnd.panicked, gk) := by
  rw [edgeLoop_append cfg pre _ g gk hpre]
  have hg := addFollowEdge_error_keeps_graph cfg gk g' io fromId toId e herr
  subst hg
  simp [edgeLoop, herr]

/-! ## What the edge loop preserves -/

theorem vertexNext_ok_inv (cfg : Config) (g : Graph) (fault : Option String)
    (vertexId : String) (r : Result) (h : vertexNext cfg g fault vertexId = NextResp.ok r) :
    ∃ w, r = Result.vertex w ∧ w ∈ g.vertices ∧ w.Label = cfg.userLabel ∧ w.Id = vertexId := by
  unfold vertexNext at h
  cases fault with
  | some m => simp at h
  | none =>
    simp only at h
    cases hfind : g.vertices.find? (isUserVertex cfg vertexId) with
    | none => simp [hfind] at h
    | some w =>
      simp only [hfind, NextResp.ok.injEq] at h
      have hw := List.find?_some hfind
      simp only [isUserVertex, decide_eq_true_eq] at hw
      exact ⟨w, h.symm, List.mem_of_find?_eq_some hfind, hw.1, hw.2⟩

/-- Without store failures `addFollowEdge` changes the graph only when no
follow edge touches the `fromId` vertex. -/
theorem addFollowEdge_changes_only_untouched (cfg : Config) (g : Graph)
    (newId fromId toId : String)
    (hch : (addFollowEdge cfg g (FollowFaults.none newId) fromId toId).2 ≠ g) :
    ∀ e ∈ g.edges, e.Label = cfg.followEdgeLabel → e.OutV ≠ fromId ∧ e.InV ≠ fromId := by
  intro e he hel
  by_contra hcon
  have hinc : e.OutV = fromId ∨ e.InV = fromId := by tauto
  apply hch
  cases hf : vertexNext cfg g none fromId with
  | fail msg =>
    simp only [addFollowEdge, FollowFaults.none, getUserVertex_of_next_fail cfg g none fromId msg hf]
  | ok ra =>
    cases ht : vertexNext cfg g none toId with
    | fail msg =>
      simp only [addFollowEdge, FollowFaults.none,
        getUserVertex_of_next_ok cfg g none fromId ra hf,
        getUserVertex_of_next_fail cfg g none toId msg ht]
    | ok rb =>
      obtain ⟨wa, -, hwa, hwal, hwaid⟩ := vertexNext_ok_inv cfg g none fromId ra hf
      obtain ⟨wb, -, hwb, hwbl, hwbid⟩ := vertexNext_ok_inv cfg g none toId rb ht
      rw [addFollowEdge_panics_of_incident cfg g newId fromId toId wa wb e hwa hwal hwaid
        hwb hwbl hwbid he hel hinc]

theorem addFollowEdge_at_most_one (cfg : Config) (g : Graph) (newId fromId toId : String)
    (hinv : AtMostOnePerPair cfg g) :
    AtMostOnePerPair cfg (addFollowEdge cfg g (FollowFaults.none newId) fromId toId).2 := by
  by_cases hch : (addFollowEdge cfg g (FollowFaults.none newId) fromId toId).2 = g
  · rw [hch]; exact hinv
  · have hno := addFollowEdge_changes_only_untouched cfg g newId fromId toId hch
    rcases addFollowEdge_graph_cases cfg g (FollowFaults.none newId) fromId toId with hg | hg
    · exact absurd hg hch
    · rw [hg]
      intro a b
      simp only [followEdgesBetween, List.filter_append, List.length_append]
      by_cases hab : (fromId = a ∧ toId = b) ∨ (fromId = b ∧ toId = a)
      · have hold : g.edges.filter (fun e => decide (e.Label = cfg.followEdgeLabel ∧
            ((e.OutV = a ∧ e.InV = b) ∨ (e.OutV = b ∧ e.InV = a)))) = [] := by
          rw [List.filter_eq_nil_iff]
          intro e hmem
          have := hno e hmem
          simp only [decide_eq_true_eq]
          rintro ⟨hl, h | h⟩
          · rcases hab with hab | hab
            · exact (this hl).1 (by rw [h.1, hab.1])
            · exact (this hl).2 (by rw [h.2, hab.1])
          · rcases hab with hab | hab
            · exact (this hl).2 (by rw [h.2, hab.1])
            · exact (this hl).1 (by rw [h.1, hab.1])
        rw [hold]
        simpa using List.length_filter_le _ [newFollowEdge cfg _ fromId toId]
      · have hnew : [newFollowEdge cfg (FollowFaults.none newId).newEdgeId fromId toId].filter
            (fun e => decide (e.Label = cfg.followEdgeLabel ∧
              ((e.OutV = a ∧ e.InV = b) ∨ (e.OutV = b ∧ e.InV = a)))) = [] := by
          rw [List.filter_eq_nil_iff]
          intro e hmem
          simp only [List.mem_singleton] at hmem
          subst hmem
          simp only [decide_eq_true_eq, newFollowEdge]
          tauto
        rw [hnew]
        simpa [followEdgesBetween] using hinv a b

/-- Part of C2 that the code keeps: a run of the edge loop without store
failures, however it ends, leaves at most one follow edge per unordered
pair of vertices if it started with at most one. -/
theorem edgeLoop_at_most_one_per_pair (cfg : Config) (rows : List ((String × String) × String)) :
    ∀ g : Graph, AtMostOnePerPair cfg g →
      AtMostOnePerPair cfg (edgeLoop cfg g (withoutFollowFaults rows)).2 := by
  induction rows with
  | nil => intro g h; exact h
  | cons row rest ih =>
    intro g h
    obtain ⟨⟨fromId, toId⟩, newId⟩ := row
    have hstep := addFollowEdge_at_most_one cfg g newId fromId toId h
    simp only [withoutFollowFaults, List.map_cons, edgeLoop]
    cases hs : addFollowEdge cfg g (FollowFaults.none newId) fromId toId with
    | mk r g' =>
      rw [hs] at hstep
      cases r with
      | panicked => exact hstep
      | ret err =>
        cases err with
        | some e => exact hstep
        | none => exact ih g' hstep

theorem addFollowEdge_no_mutual_flag (cfg : Config) (g : Graph) (io : FollowFaults)
    (fromId toId : String) (hinv : NoMutualFlag cfg g) :
    NoMutualFlag cfg (addFollowEdge cfg g io fromId toId).2 := by
  rcases addFollowEdge_graph_cases cfg g io fromId toId with hg | hg
  · rw [hg]; exact hinv
  · rw [hg]
    intro e he hel
    rcases List.mem_append.mp he with he | he
    · exact hinv e he hel
    · simp only [List.mem_singleton] at he
      subst he
      simp [Edge.mutualFlag, newFollowEdge]

/-- The edge loop never sets the mutual flag: whatever the follow rows and
whatever the store does, a graph without a `true` flag stays without one. -/
theorem edgeLoop_no_mutual_flag (cfg : Config) (rows : List ((String × String) × FollowFaults)) :
    ∀ g : Graph, NoMutualFlag cfg g → NoMutualFlag cfg (edgeLoop cfg g rows).2 := by
  induction rows with
  | nil => intro g h; exact h
  | cons row rest ih =>
    intro g h
    obtain ⟨⟨fromId, toId⟩, io⟩ := row
    have hstep := addFollowEdge_no_mutual_flag cfg g io fromId toId h
    simp only [edgeLoop]
    cases hs : addFollowEdge cfg g io fromId toId with
    | mk r g' =>
      rw [hs] at hstep
      cases r with
      | panicked => exact hstep
      | ret err =>
        cases err with
        | some e => exact hstep
        | none => exact ih g' hstep

/-! ## Runs on the sample graph -/

/-- C1, on Terry and Mary in the graph without edges: the call for
(Terry, Mary) returns no error and creates the edge; the call for
(Mary, Terry) panics; afterwards the one follow edge between the two still
carries the mutual flag `false`. -/
theorem mutual_pair_second_call_panics :
    addFollowEdge cfg0 g2 (FollowFaults.none "e1") "Terry" "Mary" =
        (Exec.ret none, g2Followed) ∧
      addFollowEdge cfg0 g2Followed (FollowFaults.none "e2") "Mary" "Terry" =
        (Exec.panicked, g2Followed) ∧
      (followEdgesBetween cfg0 g2Followed "Terry" "Mary").map (Edge.mutualFlag cfg0) =
        [some (PropValue.bool false)] := by
  decide

/-- C2, on the graph in which Terry follows Mary: `findFollowEdge` for
(Terry, Mary) and for (Mary, Terry) does not return the id of the existing
edge; it panics.  On the graph in which Terry follows Lucy and Mary, the
lookup for (Terry, Mary) is handed the edge to Lucy and panics as well. -/
theorem findFollowEdge_existing_edge_panics :
    followEdgesBetween cfg0 g2Followed "Terry" "Mary" = [newFollowEdge cfg0 "e1" "Terry" "Mary"] ∧
      findFollowEdge cfg0 g2Followed none "Terry" "Mary" (some (Result.vertex (userV "Mary"))) =
        Exec.panicked ∧
      findFollowEdge cfg0 g2Followed none "Mary" "Terry" (some (Result.vertex (userV "Terry"))) =
        Exec.panicked ∧
      followEdgesBetween cfg0 g3 "Terry" "Mary" = [newFollowEdge cfg0 "e1" "Terry" "Mary"] ∧
      bothENext cfg0 g3 none "Terry" =
        NextResp.ok (Result.edge (newFollowEdge cfg0 "e0" "Terry" "Lucy")) ∧
      findFollowEdge cfg0 g3 none "Terry" "Mary" (some (Result.vertex (userV "Mary"))) =
        Exec.panicked := by
  decide

/-- C5, on Terry and Mary in the graph without edges: when the edge creation
fails with a store error, `addFollowEdge` returns no error; when the lookup
of the `fromId` vertex or of the `toId` vertex fails with a store error
other than the no-results signal, it returns no error either. -/
theorem addFollowEdge_swallows_store_errors :
    addFollowEdge cfg0 g2
        { fromLookup := none, toLookup := none, edgeLookup := none,
          edgeWrite := some "connection reset", newEdgeId := "e1" } "Terry" "Mary" =
        (Exec.ret none, g2) ∧
      addFollowEdge cfg0 g2
        { fromLookup := some "connection reset", toLookup := none, edgeLookup := none,
          edgeWrite := none, newEdgeId := "e1" } "Terry" "Mary" =
        (Exec.ret none, g2) ∧
      addFollowEdge cfg0 g2
        { fromLookup := none, toLookup := some "connection reset", edgeLookup := none,
          edgeWrite := none, newEdgeId := "e1" } "Terry" "Mary" =
        (Exec.ret none, g2) := by
  decide

/-- C8, on the follow rows (Terry, Mary), (Mary, Terry) from the graph
without edges: the edge loop panics at the second row, and the follow edge
between Terry and Mary carries the mutual flag `false` although both
directions are in the rows. -/
theorem edgeLoop_mutual_rows_flag_false :
    edgeLoop cfg0 g2
        [(("Terry", "Mary"), FollowFaults.none "e1"), (("Mary", "Terry"), FollowFaults.none "e2")] =
        (RunEnd.panicked, g2Followed) ∧
      ∀ e ∈ followEdgesBetween cfg0 g2Followed "Terry" "Mary",
        e.mutualFlag cfg0 = some (PropValue.bool false) := by
  decide

/-- C10, on two follow rows with a store error during the first: the edge
creation for (Terry, Mary) fails, yet the loop goes on, syncs (Mary, Terry)
and ends normally; the graph is not the one before the first row. -/
theorem edgeLoop_continues_after_store_error :
    edgeLoop cfg0 g2
        [(("Terry", "Mary"),
            { fromLookup := none, toLookup := none, edgeLookup := none,
              edgeWrite := some "connection reset", newEdgeId := "e1" }),
          (("Mary", "Terry"), FollowFaults.none "e2")] =
        (RunEnd.done,
          { vertices := g2.vertices, edges := [newFollowEdge cfg0 "e2" "Mary" "Terry"] }) ∧
      edgeLoop cfg0 g2 [] = (RunEnd.done, g2) := by
  decide

end NeptuneSync
